import Mathlib

/-!
Shallow embedding of the dialogue-engine core of `src/main.py`
(FastAPI route `route_request` plus `classify_intent`), a multi-turn
HR workflow chatbot.  Python dicts are modelled as association lists,
JSON field values as an inductive `Value` with Python truthiness, and
the fallible external calls (Azure OpenAI oracle, webhook POST) as an
`Env` record carrying each call's outcome for the turn.
-/

namespace OptiFlow

/-- A JSON-ish field value, with Python truthiness in mind. -/
inductive Value where
  | vStr (s : String)
  | vNum (n : Int)
  | vBool (b : Bool)
  | vNull
deriving DecidableEq, Repr

/-- Python truthiness of a value (`if v:`): empty string, zero, False
and None are falsy. -/
def Value.truthy : Value → Bool
  | .vStr s => !(s == "")
  | .vNum n => !(n == 0)
  | .vBool b => b
  | .vNull => false

/-- `s.strip().lower()`: drop leading and trailing whitespace, then
lower-case (ASCII, which covers every vocabulary word and label the
program compares against). -/
def normalize (s : String) : String :=
  ⟨(((s.data.dropWhile Char.isWhitespace).reverse.dropWhile
      Char.isWhitespace).reverse).map Char.toLower⟩

instance {ε α : Type} [DecidableEq ε] [DecidableEq α] :
    DecidableEq (Except ε α) := fun a b =>
  match a, b with
  | .ok x, .ok y =>
    if h : x = y then .isTrue (by rw [h])
    else .isFalse (fun hc => h (Except.ok.inj hc))
  | .error x, .error y =>
    if h : x = y then .isTrue (by rw [h])
    else .isFalse (fun hc => h (Except.error.inj hc))
  | .ok _, .error _ => .isFalse (fun hc => Except.noConfusion hc)
  | .error _, .ok _ => .isFalse (fun hc => Except.noConfusion hc)

/-- Lookup in a string-keyed association list (`d.get(k)`). -/
def alGet {α : Type} (m : List (String × α)) (k : String) : Option α :=
  match m with
  | [] => none
  | p :: rest => if p.1 = k then some p.2 else alGet rest k

/-- `d[k] = v`: replace the value at an existing key in place, else
append the new binding (Python dict assignment semantics; dict keys
are unique, so replacing the first occurrence is replacing the
occurrence). -/
def alSet {α : Type} (m : List (String × α)) (k : String) (v : α) :
    List (String × α) :=
  match m with
  | [] => [(k, v)]
  | p :: rest => if p.1 = k then (k, v) :: rest else p :: alSet rest k v

/-- `del d[k]`: remove the binding for `k`. -/
def alDel {α : Type} (m : List (String × α)) (k : String) :
    List (String × α) :=
  m.filter (fun p => !(p.1 == k))

/-- Session field mapping (`session["fields"]`). -/
abbrev Fields := List (String × Value)

/-- `fields.get(k)` is truthy (`not fields.get(k)` negated). -/
def truthyAt (m : Fields) (k : String) : Bool :=
  match alGet m k with
  | some v => v.truthy
  | none => false

/-- The closed workflow-kind set: the keys of `WEBHOOKS`. -/
inductive Intent where
  | onboarding
  | leave_request
  | pulse_check
deriving DecidableEq, Repr

/-- `REQUIRED_FIELDS` table of `src/main.py`. -/
def REQUIRED_FIELDS : Intent → List String
  | .onboarding =>
      ["employee_id", "first_name", "last_name", "email", "department",
       "role", "start_date", "manager_email"]
  | .leave_request => ["employee_id", "start_date", "end_date", "reason"]
  | .pulse_check => []

/-- Recognise a (stripped, lowered) label as a key of `WEBHOOKS`
(`if intent not in WEBHOOKS: raise`). -/
def parseIntent (s : String) : Option Intent :=
  if s = "onboarding" then some .onboarding
  else if s = "leave_request" then some .leave_request
  else if s = "pulse_check" then some .pulse_check
  else none

/-- `classify_intent`: the oracle call may itself error; on content,
strip + lower, then reject labels outside the closed set. -/
def classify_intent (oracleResp : Except String String) :
    Except String Intent :=
  match oracleResp with
  | .error e => .error e
  | .ok content =>
    let intent := normalize content
    match parseIntent intent with
    | some i => .ok i
    | none => .error ("Invalid intent: " ++ intent)

/-- Per-user dialogue session (the dict stored in `user_sessions`). -/
structure Session where
  intent : Option Intent
  fields : Fields
  pending_confirmation : Bool
deriving DecidableEq, Repr

/-- The fresh default session supplied by `user_sessions.get(user, {...})`. -/
def defaultSession : Session :=
  { intent := none, fields := [], pending_confirmation := false }

/-- The process-wide `user_sessions` dict. -/
abbrev Store := List (String × Session)

/-- Affirmative confirmation vocabulary. -/
def AFFIRMATIVE : List String := ["yes", "confirm", "yes please", "submit"]

/-- Negative confirmation vocabulary. -/
def NEGATIVE : List String := ["no", "cancel", "not now"]

/-- `casual_messages` small-talk vocabulary. -/
def CASUAL : List String :=
  ["hi", "hello", "hey", "yo", "how are you", "good morning",
   "good afternoon"]

/-- Outcomes of the turn's external calls: the raw classifier response
(`Except.error` = API exception), the extraction outcome (error = API
exception or unparseable JSON anywhere in `extract_fields`), and
whether the webhook POST succeeds (`raise_for_status` included). -/
structure Env where
  classifyResp : Except String String
  extractResp : Except String Fields
  webhookOk : Bool

/-- The tag of the returned JSON's `status` field. -/
inductive Status where
  | success
  | error
  | cancelled
  | waiting
  | neutral
  | confirm
  | incomplete
deriving DecidableEq, Repr

/-- The JSON returned by the route: its status tag, the intent it
names (where relevant), the missing-field list of an `incomplete`
result, and error details. -/
structure RouteResult where
  status : Status
  intent : Option Intent
  missing : List String
  details : Option String
deriving DecidableEq, Repr

/-- Intent-change reset (`if session["intent"] != intent: session = {...}`). -/
def resolveSession (session : Session) (intent : Intent) : Session :=
  if session.intent ≠ some intent then
    { intent := some intent, fields := [], pending_confirmation := false }
  else session

/-- `session["fields"].update({k: v for k, v in new_fields.items() if v})`. -/
def updateFields (m : Fields) (newFields : Fields) : Fields :=
  newFields.foldl
    (fun acc p => if p.2.truthy then alSet acc p.1 p.2 else acc) m

/-- The last truthy value an extractor output proposes for key `k`,
folded left the way `updateFields` walks the output; `acc` is what the
key maps to before the walk (analysis helper for the merge lemmas). -/
def lastTruthyAux (newFields : Fields) (k : String) (acc : Option Value) :
    Option Value :=
  match newFields with
  | [] => acc
  | p :: rest =>
    lastTruthyAux rest k
      (if p.1 = k ∧ p.2.truthy = true then some p.2 else acc)

/-- The try/except around `extract_fields`: on success merge, on any
exception keep the fields as they were. -/
def mergeStep (fields : Fields) (extractResp : Except String Fields) :
    Fields :=
  match extractResp with
  | .ok newFields => updateFields fields newFields
  | .error _ => fields

/-- `if intent == "pulse_check": session["fields"]["email"] = user`. -/
def pulseAdjust (intent : Intent) (user : String) (fields : Fields) :
    Fields :=
  if intent = .pulse_check then alSet fields "email" (.vStr user)
  else fields

/-- `missing = [k for k in required if not session["fields"].get(k)]`. -/
def computeMissing (intent : Intent) (fields : Fields) : List String :=
  (REQUIRED_FIELDS intent).filter (fun k => !truthyAt fields k)

/-- The `/route` handler body.  Returns the post-turn `user_sessions`
store together with the response JSON.  The aliasing of
`payload = session["fields"]` (so `payload["source_user"] = user`
mutates the stored session before the webhook POST) is made explicit:
the mutated session is written back whenever the turn does not delete
it. -/
def route_request (env : Env) (store : Store) (user rawMessage : String) :
    Store × RouteResult :=
  let message := normalize rawMessage
  let session := (alGet store user).getD defaultSession
  if session.pending_confirmation then
    if message ∈ AFFIRMATIVE then
      -- intent = session["intent"]; payload = session["fields"];
      -- payload["source_user"] = user   (mutates the stored dict)
      let mutated : Session :=
        { session with
            fields := alSet session.fields "source_user" (.vStr user) }
      match session.intent with
      | none =>
        -- WEBHOOKS[None] raises KeyError, caught by the bare except
        (alSet store user mutated,
         { status := .error, intent := none, missing := [],
           details := some "KeyError" })
      | some intent =>
        if env.webhookOk then
          (alDel store user,
           { status := .success, intent := some intent, missing := [],
             details := none })
        else
          (alSet store user mutated,
           { status := .error, intent := none, missing := [],
             details := some "Submission failed" })
    else if message ∈ NEGATIVE then
      (alDel store user,
       { status := .cancelled, intent := none, missing := [],
         details := none })
    else
      (store,
       { status := .waiting, intent := none, missing := [],
         details := none })
  else if message ∈ CASUAL then
    (store,
     { status := .neutral, intent := none, missing := [],
       details := none })
  else
    match classify_intent env.classifyResp with
    | .error e =>
      (store,
       { status := .error, intent := none, missing := [],
         details := some e })
    | .ok intent =>
      let session1 := resolveSession session intent
      let fields1 := mergeStep session1.fields env.extractResp
      let fields2 := pulseAdjust intent user fields1
      let missing := computeMissing intent fields2
      if missing.isEmpty then
        (alSet store user
          { session1 with fields := fields2, pending_confirmation := true },
         { status := .confirm, intent := some intent, missing := [],
           details := none })
      else
        (alSet store user { session1 with fields := fields2 },
         { status := .incomplete, intent := some intent, missing := missing,
           details := none })

/-- One processed (user, message) pair together with its external-call
outcomes. -/
structure Turn where
  user : String
  message : String
  env : Env

/-- Run a sequence of turns from a store. -/
def runTurnsFrom (store : Store) (turns : List Turn) : Store :=
  turns.foldl (fun st t => (route_request t.env st t.user t.message).1) store

/-- Run a sequence of turns from the initial empty `user_sessions`. -/
def runTurns (turns : List Turn) : Store :=
  runTurnsFrom [] turns

/-- The session invariant: `pending_confirmation` implies a set intent
whose required-field schema is fully satisfied (missing empty). -/
def sessionOk (s : Session) : Bool :=
  !s.pending_confirmation ||
    (match s.intent with
     | none => false
     | some i => (computeMissing i s.fields).isEmpty)

/-- The invariant over the whole store. -/
def storeOk (st : Store) : Bool :=
  st.all (fun p => sessionOk p.2)

/-! ### Association-list lemmas -/

theorem alGet_alSet {α : Type} (m : List (String × α)) (k k' : String)
    (v : α) :
    alGet (alSet m k v) k' = if k' = k then some v else alGet m k' := by
  induction m with
  | nil =>
    by_cases h : k' = k
    · subst h; simp [alSet, alGet]
    · have h2 : k ≠ k' := fun hc => h hc.symm
      simp [alSet, alGet, h, h2]
  | cons p rest ih =>
    by_cases hpk : p.1 = k
    · simp only [alSet, hpk, if_true]
      by_cases h' : k' = k
      · subst h'; simp [alGet]
      · have hka : k ≠ k' := fun hc => h' hc.symm
        have hpa : p.1 ≠ k' := by rw [hpk]; exact hka
        simp [alGet, h', hka, hpa]
    · simp only [alSet, hpk, if_false]
      by_cases hpk' : p.1 = k'
      · have hk'k : ¬ k' = k := fun hc => hpk (hpk'.trans hc)
        simp [alGet, hpk', hk'k]
      · simp [alGet, hpk', ih]

theorem alGet_alSet_self {α : Type} (m : List (String × α)) (k : String)
    (v : α) : alGet (alSet m k v) k = some v := by
  simp [alGet_alSet]

theorem alGet_alSet_ne {α : Type} (m : List (String × α)) (k k' : String)
    (v : α) (h : k' ≠ k) : alGet (alSet m k v) k' = alGet m k' := by
  simp [alGet_alSet, h]

theorem alSet_alSet_same {α : Type} (m : List (String × α)) (k : String)
    (v v' : α) : alSet (alSet m k v) k v' = alSet m k v' := by
  induction m with
  | nil => simp [alSet]
  | cons p rest ih =>
    by_cases hpk : p.1 = k
    · simp [alSet, hpk]
    · simp [alSet, hpk, ih]

theorem alGet_mem {α : Type} (m : List (String × α)) (k : String) (v : α)
    (h : alGet m k = some v) : (k, v) ∈ m := by
  induction m with
  | nil => simp [alGet] at h
  | cons p rest ih =>
    by_cases hpk : p.1 = k
    · simp only [alGet, hpk, if_true, Option.some.injEq] at h
      subst h
      rcases p with ⟨a, b⟩
      simp_all
    · simp only [alGet, hpk, if_false] at h
      exact List.mem_cons_of_mem _ (ih h)

theorem all_alSet {α : Type} (q : String × α → Bool)
    (m : List (String × α)) (k : String) (v : α)
    (hm : m.all q = true) (hv : q (k, v) = true) :
    (alSet m k v).all q = true := by
  induction m with
  | nil => simpa [alSet]
  | cons p rest ih =>
    simp only [List.all_cons, Bool.and_eq_true] at hm
    by_cases hpk : p.1 = k
    · simp [alSet, hpk, hv, hm.2]
    · simp [alSet, hpk, hm.1, ih hm.2]

theorem all_alDel {α : Type} (q : String × α → Bool)
    (m : List (String × α)) (k : String) (hm : m.all q = true) :
    (alDel m k).all q = true := by
  induction m with
  | nil => simp [alDel]
  | cons p rest ih =>
    simp only [List.all_cons, Bool.and_eq_true] at hm
    by_cases hpk : p.1 = k
    · simpa [alDel, hpk] using ih hm.2
    · simpa [alDel, hpk, hm.1] using ih hm.2

theorem truthyAt_alSet_ne (f : Fields) (k k' : String) (v : Value)
    (h : k' ≠ k) : truthyAt (alSet f k v) k' = truthyAt f k' := by
  simp [truthyAt, alGet_alSet_ne f k k' v h]

/-! ### Session / invariant helper lemmas -/

/-- A session retrieved with `pending_confirmation` set is genuinely in
the store: the default supplied by `.get(user, {...})` has the flag
false. -/
theorem pending_in_store (store : Store) (u : String) (s : Session)
    (hs : (alGet store u).getD defaultSession = s)
    (hp : s.pending_confirmation = true) : alGet store u = some s := by
  cases hget : alGet store u with
  | none =>
    rw [hget] at hs
    simp [defaultSession] at hs
    rw [← hs] at hp
    simp at hp
  | some t =>
    rw [hget] at hs
    simp only [Option.getD_some] at hs
    exact congrArg some hs

theorem storeOk_get (st : Store) (u : String) (s : Session)
    (hok : storeOk st = true) (hget : alGet st u = some s) :
    sessionOk s = true := by
  have hmem : (u, s) ∈ st := alGet_mem st u s hget
  exact (List.all_eq_true.mp hok) _ hmem

theorem sessionOk_pending (s : Session) (hok : sessionOk s = true)
    (hp : s.pending_confirmation = true) :
    ∃ i, s.intent = some i ∧ (computeMissing i s.fields).isEmpty = true := by
  cases hi : s.intent with
  | none => simp [sessionOk, hp, hi] at hok
  | some i =>
    refine ⟨i, rfl, ?_⟩
    simpa [sessionOk, hp, hi] using hok

theorem source_user_not_required (i : Intent) :
    "source_user" ∉ REQUIRED_FIELDS i := by
  cases i <;> decide

theorem computeMissing_alSet_not_required (i : Intent) (f : Fields)
    (k : String) (v : Value) (hk : k ∉ REQUIRED_FIELDS i) :
    computeMissing i (alSet f k v) = computeMissing i f := by
  unfold computeMissing
  refine List.filter_congr ?_
  intro x hx
  have hxk : x ≠ k := fun hcon => hk (hcon ▸ hx)
  rw [truthyAt_alSet_ne f k x v hxk]

theorem resolveSession_intent (s : Session) (i : Intent) :
    (resolveSession s i).intent = some i := by
  unfold resolveSession
  split
  · rfl
  · next h => simpa using not_not.mp h

theorem resolveSession_pending (s : Session) (i : Intent)
    (hp : s.pending_confirmation = false) :
    (resolveSession s i).pending_confirmation = false := by
  unfold resolveSession
  split
  · rfl
  · exact hp

/-! ### Merge lemmas -/

theorem alGet_updateFields (newFields m : Fields) (k : String) :
    alGet (updateFields m newFields) k
      = lastTruthyAux newFields k (alGet m k) := by
  induction newFields generalizing m with
  | nil => rfl
  | cons p rest ih =>
    show alGet
        (updateFields (if p.2.truthy = true then alSet m p.1 p.2 else m)
          rest) k = _
    rw [ih]
    show _ = lastTruthyAux rest k
        (if p.1 = k ∧ p.2.truthy = true then some p.2 else alGet m k)
    congr 1
    by_cases ht : p.2.truthy = true
    · by_cases hk : p.1 = k
      · subst hk
        simp [ht, alGet_alSet]
      · have hk' : k ≠ p.1 := fun hc => hk hc.symm
        simp [ht, hk, alGet_alSet, hk']
    · simp [ht]

theorem lastTruthyAux_cases (newFields : Fields) (k : String) :
    (∀ acc, lastTruthyAux newFields k acc = acc)
    ∨ (∃ v, v.truthy = true
        ∧ ∀ acc, lastTruthyAux newFields k acc = some v) := by
  induction newFields with
  | nil => exact Or.inl fun acc => rfl
  | cons p rest ih =>
    rcases ih with hid | ⟨v, hv, hconst⟩
    · by_cases hc : p.1 = k ∧ p.2.truthy = true
      · refine Or.inr ⟨p.2, hc.2, fun acc => ?_⟩
        show lastTruthyAux rest k
          (if p.1 = k ∧ p.2.truthy = true then some p.2 else acc) = some p.2
        rw [if_pos hc, hid]
      · refine Or.inl fun acc => ?_
        show lastTruthyAux rest k
          (if p.1 = k ∧ p.2.truthy = true then some p.2 else acc) = acc
        rw [if_neg hc, hid]
    · exact Or.inr ⟨v, hv, fun acc => hconst _⟩

/-! ### One-turn invariant preservation and multi-turn runs -/

set_option maxHeartbeats 1000000 in
theorem storeOk_route (env : Env) (st : Store) (u msg : String)
    (h : storeOk st = true) :
    storeOk (route_request env st u msg).1 = true := by
  obtain ⟨s0, hs0⟩ : ∃ s0, (alGet st u).getD defaultSession = s0 := ⟨_, rfl⟩
  unfold route_request
  rw [hs0]
  by_cases hp : s0.pending_confirmation = true
  · have hget : alGet st u = some s0 := pending_in_store st u s0 hs0 hp
    have hok : sessionOk s0 = true := storeOk_get st u s0 h hget
    obtain ⟨i, hi, hmiss⟩ := sessionOk_pending s0 hok hp
    by_cases ha : normalize msg ∈ AFFIRMATIVE
    · by_cases hw : env.webhookOk = true
      · simp only [hp, ha, hi, hw, if_true, ite_true]
        exact all_alDel _ st u h
      · simp only [hp, ha, hi, hw, if_true, ite_true, if_false, ite_false]
        refine all_alSet _ st u _ h ?_
        simp only [sessionOk, hp, hi]
        simp [computeMissing_alSet_not_required i s0.fields "source_user"
          (Value.vStr u) (source_user_not_required i), hmiss]
    · by_cases hn : normalize msg ∈ NEGATIVE
      · simp only [hp, ha, hn, ite_true, ite_false]
        exact all_alDel _ st u h
      · simp only [hp, ha, hn, ite_true, ite_false]
        exact h
  · by_cases hc : normalize msg ∈ CASUAL
    · simp only [hp, hc, ite_true, ite_false]
      exact h
    · cases hcl : classify_intent env.classifyResp with
      | error e =>
        simp only [hp, hc, hcl, ite_true, ite_false]
        exact h
      | ok intent =>
        simp only [hp, hc, hcl, ite_true, ite_false]
        have hp' : s0.pending_confirmation = false := by
          cases hb : s0.pending_confirmation
          · rfl
          · exact absurd hb hp
        by_cases hm : (computeMissing intent (pulseAdjust intent u
            (mergeStep (resolveSession s0 intent).fields
              env.extractResp))).isEmpty = true
        · simp only [hm, ite_true]
          refine all_alSet _ st u _ h ?_
          simp [sessionOk, resolveSession_intent s0 intent, hm]
        · simp only [hm, ite_false]
          refine all_alSet _ st u _ h ?_
          simp [sessionOk, resolveSession_pending s0 intent hp']

theorem storeOk_runTurnsFrom (turns : List Turn) (st : Store)
    (h : storeOk st = true) : storeOk (runTurnsFrom st turns) = true := by
  induction turns generalizing st with
  | nil => exact h
  | cons t rest ih =>
    exact ih _ (storeOk_route t.env st t.user t.message h)

/-! ### Claim theorems -/

/-- Any turn that reaches a successful classification ends in a
confirm or an incomplete result. -/
theorem status_of_classified (env : Env) (store : Store)
    (user message : String) (intent : Intent)
    (hp : ((alGet store user).getD defaultSession).pending_confirmation = false)
    (hc : normalize message ∉ CASUAL)
    (hcl : classify_intent env.classifyResp = .ok intent) :
    (route_request env store user message).2.status = .confirm
    ∨ (route_request env store user message).2.status = .incomplete := by
  obtain ⟨s0, hs0⟩ : ∃ s0, (alGet store user).getD defaultSession = s0 :=
    ⟨_, rfl⟩
  rw [hs0] at hp
  unfold route_request
  rw [hs0]
  by_cases hm : (computeMissing intent (pulseAdjust intent user
      (mergeStep (resolveSession s0 intent).fields
        env.extractResp))).isEmpty = true
  · left
    simp [hp, hc, hcl, hm]
  · right
    simp [hp, hc, hcl, hm]

/-- C1: for every sequence of processed (user, message) pairs, after
each turn every session stored in the session store satisfies:
`pending_confirmation = true` implies the intent is set and every
field name in the required-field schema for that intent maps to a
truthy value in the session's fields (its missing list is empty). -/
theorem C1_pending_invariant (turns : List Turn) :
    storeOk (runTurns turns) = true :=
  storeOk_runTurnsFrom turns [] rfl

/-- C2 counterexample: with a complete pulse-check session awaiting
confirmation, message "yes" and a failing webhook, the stored session
state after the turn is NOT exactly what it was before the webhook
call was attempted: `payload = session["fields"]` aliases the stored
dict, so `payload["source_user"] = user` mutates it before the POST. -/
theorem C2_store_unchanged_counterexample :
    ¬ ((route_request ⟨.ok "x", .ok [], false⟩
          [("u", ⟨some .pulse_check, [("email", .vStr "u")], true⟩)]
          "u" "yes").1
        = [("u", ⟨some .pulse_check, [("email", .vStr "u")], true⟩)]) := by
  decide

/-- C2 (amended): when a session has `pending_confirmation = true`,
the message is an affirmative vocabulary match and the webhook
submission fails, the session is not destroyed and remains retrievable
so the user may retry confirmation; however the stored fields are
mutated before the webhook call returns: the key `source_user` is set
to the user identity, and the store is otherwise unchanged. -/
theorem C2_session_retained_with_marker (env : Env) (store : Store)
    (user message : String) (s : Session) (i : Intent)
    (hs : alGet store user = some s)
    (hp : s.pending_confirmation = true)
    (hi : s.intent = some i)
    (ha : normalize message ∈ AFFIRMATIVE)
    (hw : env.webhookOk = false) :
    route_request env store user message
      = (alSet store user
          { s with fields := alSet s.fields "source_user" (.vStr user) },
         { status := .error, intent := none, missing := [],
           details := some "Submission failed" })
    ∧ alGet (route_request env store user message).1 user
      = some { s with fields := alSet s.fields "source_user" (.vStr user) } := by
  have hbase : route_request env store user message
      = (alSet store user
          { s with fields := alSet s.fields "source_user" (.vStr user) },
         { status := .error, intent := none, missing := [],
           details := some "Submission failed" }) := by
    unfold route_request
    simp [hs, hp, hi, ha, hw]
  refine ⟨hbase, ?_⟩
  rw [hbase]
  exact alGet_alSet_self store user _

/-- Witness for C2 (amended) at a concrete complete pulse-check
session. -/
theorem C2_session_retained_with_marker_witness :
    route_request ⟨.ok "x", .ok [], false⟩
        [("u", ⟨some .pulse_check, [("email", .vStr "u")], true⟩)] "u" "yes"
      = (alSet [("u", ⟨some .pulse_check, [("email", .vStr "u")], true⟩)] "u"
          ⟨some .pulse_check,
           alSet [("email", .vStr "u")] "source_user" (.vStr "u"), true⟩,
         ⟨.error, none, [], some "Submission failed"⟩)
    ∧ alGet (route_request ⟨.ok "x", .ok [], false⟩
          [("u", ⟨some .pulse_check, [("email", .vStr "u")], true⟩)]
          "u" "yes").1 "u"
      = some ⟨some .pulse_check,
          alSet [("email", .vStr "u")] "source_user" (.vStr "u"), true⟩ :=
  C2_session_retained_with_marker ⟨.ok "x", .ok [], false⟩
    [("u", ⟨some .pulse_check, [("email", .vStr "u")], true⟩)] "u" "yes"
    ⟨some .pulse_check, [("email", .vStr "u")], true⟩ .pulse_check
    (by decide) rfl rfl (by decide) rfl

/-- C3: for every non-small-talk, non-confirmation message on which
classification succeeds with an intent different from the session's
stored intent (including the unset case), the turn behaves exactly as
if the stored session had been
`{intent := new intent, fields := [], pending_confirmation := false}`
from the start: all previously accumulated fields are discarded before
extraction and the completeness check proceed. -/
theorem C3_intent_change_reset (env : Env) (store : Store)
    (user message : String) (intent : Intent)
    (hp : ((alGet store user).getD defaultSession).pending_confirmation = false)
    (hc : normalize message ∉ CASUAL)
    (hcl : classify_intent env.classifyResp = .ok intent)
    (hne : ((alGet store user).getD defaultSession).intent ≠ some intent) :
    route_request env store user message
      = route_request env
          (alSet store user
            { intent := some intent, fields := [],
              pending_confirmation := false })
          user message := by
  obtain ⟨s0, hs0⟩ : ∃ s0, (alGet store user).getD defaultSession = s0 :=
    ⟨_, rfl⟩
  rw [hs0] at hp hne
  have hres : resolveSession s0 intent
      = ⟨some intent, [], false⟩ := by
    unfold resolveSession
    rw [if_pos hne]
  have hres2 : resolveSession ⟨some intent, [], false⟩ intent
      = ⟨some intent, [], false⟩ := by
    unfold resolveSession
    simp
  unfold route_request
  rw [hs0]
  simp [hp, hc, hcl, hres, hres2, alGet_alSet_self, alSet_alSet_same]

/-- Witness for C3: a fresh user whose first message classifies as
`leave_request`. -/
theorem C3_intent_change_reset_witness :
    route_request ⟨.ok "leave_request", .ok [("employee_id", .vStr "7")], true⟩
        [] "u" "I want Monday off"
      = route_request ⟨.ok "leave_request", .ok [("employee_id", .vStr "7")], true⟩
          (alSet [] "u"
            ⟨some .leave_request, [], false⟩)
          "u" "I want Monday off" :=
  C3_intent_change_reset ⟨.ok "leave_request", .ok [("employee_id", .vStr "7")], true⟩
    [] "u" "I want Monday off" .leave_request
    (by decide) (by decide) (by decide) (by decide)

/-- C4: the field merge is additive and idempotent: merging an
extractor output into a session's fields never removes a previously
present key, every value it writes is truthy (falsy extracted values
are discarded, so any non-truthy binding in the result was already
there), and merging the same extractor output twice in sequence
yields the same field mapping as merging it once. -/
theorem C4_merge_additive_idempotent (m newFields : Fields) :
    (∀ k, (alGet m k).isSome = true →
      (alGet (updateFields m newFields) k).isSome = true)
    ∧ (∀ k v, alGet (updateFields m newFields) k = some v →
        v.truthy = true ∨ alGet m k = some v)
    ∧ (∀ k, alGet (updateFields (updateFields m newFields) newFields) k
        = alGet (updateFields m newFields) k) := by
  refine ⟨fun k hk => ?_, fun k v hkv => ?_, fun k => ?_⟩
  · rw [alGet_updateFields]
    rcases lastTruthyAux_cases newFields k with hid | ⟨w, hw, hconst⟩
    · rw [hid]; exact hk
    · rw [hconst]; rfl
  · rw [alGet_updateFields] at hkv
    rcases lastTruthyAux_cases newFields k with hid | ⟨w, hw, hconst⟩
    · rw [hid] at hkv; exact Or.inr hkv
    · rw [hconst] at hkv
      obtain rfl := Option.some.inj hkv
      exact Or.inl hw
  · rw [alGet_updateFields newFields (updateFields m newFields) k,
        alGet_updateFields newFields m k]
    rcases lastTruthyAux_cases newFields k with hid | ⟨w, hw, hconst⟩
    · simp only [hid]
    · simp only [hconst]

/-- Witness for C4 at a concrete field map and extractor output
containing a falsy value. -/
theorem C4_merge_additive_idempotent_witness :
    (alGet (updateFields [("a", Value.vStr "x")]
        [("b", Value.vStr "y"), ("c", Value.vNull)]) "a").isSome = true
    ∧ ((Value.vStr "y").truthy = true
        ∨ alGet [("a", Value.vStr "x")] "b" = some (Value.vStr "y"))
    ∧ alGet (updateFields (updateFields [("a", Value.vStr "x")]
          [("b", Value.vStr "y"), ("c", Value.vNull)])
          [("b", Value.vStr "y"), ("c", Value.vNull)]) "b"
      = alGet (updateFields [("a", Value.vStr "x")]
          [("b", Value.vStr "y"), ("c", Value.vNull)]) "b" :=
  ⟨(C4_merge_additive_idempotent [("a", Value.vStr "x")]
      [("b", Value.vStr "y"), ("c", Value.vNull)]).1 "a" (by decide),
   (C4_merge_additive_idempotent [("a", Value.vStr "x")]
      [("b", Value.vStr "y"), ("c", Value.vNull)]).2.1 "b" (Value.vStr "y")
      (by decide),
   (C4_merge_additive_idempotent [("a", Value.vStr "x")]
      [("b", Value.vStr "y"), ("c", Value.vNull)]).2.2 "b"⟩

/-- C5: while a session has `pending_confirmation = true`, a message
that (after trimming and lower-casing) matches neither the affirmative
nor the negative vocabulary returns a "waiting" result, leaves the
session store completely unchanged, and never invokes the Oracle: the
outcome is the same for every environment (classifier and extractor
outcomes are never consulted). -/
theorem C5_waiting_frame (env : Env) (store : Store) (user message : String)
    (hp : ((alGet store user).getD defaultSession).pending_confirmation = true)
    (ha : normalize message ∉ AFFIRMATIVE)
    (hn : normalize message ∉ NEGATIVE) :
    route_request env store user message
      = (store,
         { status := .waiting, intent := none, missing := [],
           details := none })
    ∧ ∀ env' : Env, route_request env' store user message
        = route_request env store user message := by
  have base : ∀ e : Env, route_request e store user message
      = (store,
         { status := .waiting, intent := none, missing := [],
           details := none }) := by
    intro e
    unfold route_request
    simp [hp, ha, hn]
  exact ⟨base env, fun env' => (base env').trans (base env).symm⟩

/-- Witness for C5 at a pending session and the message "maybe". -/
theorem C5_waiting_frame_witness :
    route_request ⟨.ok "onboarding", .ok [], true⟩
        [("u", ⟨some .pulse_check, [("email", .vStr "u")], true⟩)] "u" "maybe"
      = ([("u", ⟨some .pulse_check, [("email", .vStr "u")], true⟩)],
         ⟨.waiting, none, [], none⟩) :=
  (C5_waiting_frame ⟨.ok "onboarding", .ok [], true⟩
    [("u", ⟨some .pulse_check, [("email", .vStr "u")], true⟩)] "u" "maybe"
    (by decide) (by decide) (by decide)).1

/-- C6: for every non-small-talk, non-confirmation message on which
classification fails (the Oracle errors, or returns a label outside
the closed workflow-kind set), the turn ends with an error result
carrying the failure detail, the session store is left completely
untouched, and extraction is never attempted: the outcome is the same
for every extractor outcome. -/
theorem C6_classify_failure (env : Env) (store : Store)
    (user message e : String)
    (hp : ((alGet store user).getD defaultSession).pending_confirmation = false)
    (hc : normalize message ∉ CASUAL)
    (hcl : classify_intent env.classifyResp = .error e) :
    route_request env store user message
      = (store,
         { status := .error, intent := none, missing := [],
           details := some e })
    ∧ ∀ ext : Except String Fields,
        route_request ⟨env.classifyResp, ext, env.webhookOk⟩
            store user message
          = route_request env store user message := by
  have base : ∀ ext : Except String Fields,
      route_request ⟨env.classifyResp, ext, env.webhookOk⟩
          store user message
        = (store,
           { status := .error, intent := none, missing := [],
             details := some e }) := by
    intro ext
    unfold route_request
    simp [hp, hc, hcl]
  exact ⟨base env.extractResp,
    fun ext => (base ext).trans (base env.extractResp).symm⟩

/-- Witness for C6 at the out-of-vocabulary label "chitchat". -/
theorem C6_classify_failure_witness :
    route_request ⟨.ok "chitchat", .ok [("employee_id", .vStr "3")], true⟩
        [] "u" "do the thing"
      = ([], ⟨.error, none, [], some "Invalid intent: chitchat"⟩) :=
  (C6_classify_failure ⟨.ok "chitchat", .ok [("employee_id", .vStr "3")], true⟩
    [] "u" "do the thing" "Invalid intent: chitchat"
    (by decide) (by decide) (by decide)).1

/-- C7: for every message on which classification succeeds but field
extraction fails, the failure is swallowed: the turn is identical to
one whose extractor returned an empty output (merge skipped, the
previously accumulated fields kept exactly as-is), and it continues to
the completeness check, emitting its normal confirm-or-incomplete
result rather than aborting. -/
theorem C7_extraction_failure (env : Env) (store : Store)
    (user message : String) (intent : Intent) (e : String)
    (hp : ((alGet store user).getD defaultSession).pending_confirmation = false)
    (hc : normalize message ∉ CASUAL)
    (hcl : classify_intent env.classifyResp = .ok intent)
    (hex : env.extractResp = .error e) :
    route_request env store user message
      = route_request ⟨env.classifyResp, .ok [], env.webhookOk⟩
          store user message
    ∧ ((route_request env store user message).2.status = .confirm
        ∨ (route_request env store user message).2.status = .incomplete) := by
  refine ⟨?_, status_of_classified env store user message intent hp hc hcl⟩
  unfold route_request
  simp [hex, mergeStep, updateFields]

/-- Witness for C7: a failing extraction behaves like an empty
extraction on a partially filled leave request. -/
theorem C7_extraction_failure_witness :
    route_request ⟨.ok "leave_request", .error "boom", true⟩
        [("u", ⟨some .leave_request, [("employee_id", .vStr "7")], false⟩)]
        "u" "I want Monday off"
      = route_request ⟨.ok "leave_request", .ok [], true⟩
          [("u", ⟨some .leave_request, [("employee_id", .vStr "7")], false⟩)]
          "u" "I want Monday off" :=
  (C7_extraction_failure ⟨.ok "leave_request", .error "boom", true⟩
    [("u", ⟨some .leave_request, [("employee_id", .vStr "7")], false⟩)]
    "u" "I want Monday off" .leave_request "boom"
    (by decide) (by decide) (by decide) rfl).1

/-- C8: after merge, `missing` is the sub-list of the intent's
required-field schema whose names lack a truthy value in the session's
fields, preserving the schema's declared order; if it is empty the
session is persisted with `pending_confirmation := true` and a
"confirm" result naming the intent is returned, and if it is non-empty
the session is persisted with `pending_confirmation` remaining false
and an "incomplete" result naming the intent and the ordered
missing-field list is returned. -/
theorem C8_missing_and_decision (env : Env) (store : Store)
    (user message : String) (intent : Intent) (fields2 : Fields)
    (missing : List String)
    (hp : ((alGet store user).getD defaultSession).pending_confirmation = false)
    (hc : normalize message ∉ CASUAL)
    (hcl : classify_intent env.classifyResp = .ok intent)
    (hf2 : fields2 = pulseAdjust intent user
        (mergeStep (resolveSession ((alGet store user).getD defaultSession)
          intent).fields env.extractResp))
    (hm : missing = computeMissing intent fields2) :
    missing.Sublist (REQUIRED_FIELDS intent)
    ∧ (∀ k, k ∈ missing ↔
        k ∈ REQUIRED_FIELDS intent ∧ truthyAt fields2 k = false)
    ∧ (missing = [] →
        route_request env store user message
          = (alSet store user
              { intent := some intent, fields := fields2,
                pending_confirmation := true },
             { status := .confirm, intent := some intent, missing := [],
               details := none }))
    ∧ (missing ≠ [] →
        route_request env store user message
          = (alSet store user
              { intent := some intent, fields := fields2,
                pending_confirmation := false },
             { status := .incomplete, intent := some intent,
               missing := missing, details := none })) := by
  obtain ⟨s0, hs0⟩ : ∃ s0, (alGet store user).getD defaultSession = s0 :=
    ⟨_, rfl⟩
  rw [hs0] at hp hf2
  have hkey : computeMissing intent (pulseAdjust intent user
      (mergeStep (resolveSession s0 intent).fields env.extractResp))
      = missing := by
    rw [← hf2, hm]
  refine ⟨?_, ?_, ?_, ?_⟩
  · rw [hm]
    exact List.filter_sublist _
  · intro k
    rw [hm]
    simp [computeMissing, List.mem_filter]
  · intro hnil
    have hempty : (computeMissing intent (pulseAdjust intent user
        (mergeStep (resolveSession s0 intent).fields
          env.extractResp))).isEmpty = true := by
      rw [hkey, hnil]
      rfl
    unfold route_request
    rw [hs0]
    simp only [hp, hc, hcl, hempty]
    simp [hp, hc, hcl, hempty, resolveSession_intent s0 intent, ← hf2]
  · intro hne
    have hnonempty : (computeMissing intent (pulseAdjust intent user
        (mergeStep (resolveSession s0 intent).fields
          env.extractResp))).isEmpty = false := by
      rw [hkey]
      cases missing with
      | nil => exact absurd rfl hne
      | cons a l => rfl
    unfold route_request
    rw [hs0]
    simp [hp, hc, hcl, hnonempty, resolveSession_intent s0 intent,
      resolveSession_pending s0 intent hp, ← hf2, hkey]
    rw [← hm, if_neg hne]

/-- Witness for C8: a leave request missing `start_date` and
`end_date` yields the ordered incomplete result. -/
theorem C8_missing_and_decision_witness :
    route_request ⟨.ok "leave_request",
        .ok [("employee_id", .vStr "7"), ("reason", .vStr "sick")], true⟩
        [] "u" "I need leave"
      = (alSet [] "u"
          ⟨some .leave_request,
           [("employee_id", .vStr "7"), ("reason", .vStr "sick")], false⟩,
         ⟨.incomplete, some .leave_request, ["start_date", "end_date"],
          none⟩) :=
  (C8_missing_and_decision ⟨.ok "leave_request",
      .ok [("employee_id", .vStr "7"), ("reason", .vStr "sick")], true⟩
    [] "u" "I need leave" .leave_request
    [("employee_id", .vStr "7"), ("reason", .vStr "sick")]
    ["start_date", "end_date"]
    (by decide) (by decide) (by decide) (by decide) (by decide)).2.2.2
    (by decide)

/-- C9: for every message whose resolved intent is `pulse_check`,
after the merge step the session's fields map "email" to the user
identity string — regardless of what value the extractor proposed for
"email" — and the session persisted by the turn carries that
binding. -/
theorem C9_pulse_email_forced (env : Env) (store : Store)
    (user message : String)
    (hp : ((alGet store user).getD defaultSession).pending_confirmation = false)
    (hc : normalize message ∉ CASUAL)
    (hcl : classify_intent env.classifyResp = .ok .pulse_check) :
    (∀ f : Fields, alGet (pulseAdjust .pulse_check user f) "email"
        = some (.vStr user))
    ∧ ∃ s : Session,
        alGet (route_request env store user message).1 user = some s
        ∧ alGet s.fields "email" = some (.vStr user) := by
  have hforce : ∀ f : Fields,
      alGet (pulseAdjust .pulse_check user f) "email"
        = some (Value.vStr user) := by
    intro f
    unfold pulseAdjust
    simp [alGet_alSet_self]
  refine ⟨hforce, ?_⟩
  obtain ⟨s0, hs0⟩ : ∃ s0, (alGet store user).getD defaultSession = s0 :=
    ⟨_, rfl⟩
  rw [hs0] at hp
  unfold route_request
  rw [hs0]
  simp only [hp, hc, hcl]
  have hempty : (computeMissing .pulse_check (pulseAdjust .pulse_check user
      (mergeStep (resolveSession s0 .pulse_check).fields
        env.extractResp))).isEmpty = true := rfl
  simp only [hp, hc, hcl, hempty]
  refine ⟨⟨(resolveSession s0 Intent.pulse_check).intent,
      pulseAdjust Intent.pulse_check user
        (mergeStep (resolveSession s0 Intent.pulse_check).fields
          env.extractResp),
      true⟩, ?_, hforce _⟩
  simp [hp, hc, hcl, hempty, alGet_alSet_self]

/-- Witness for C9: the extractor's guess "bob@co" is overridden by
the user identity "alice@co". -/
theorem C9_pulse_email_forced_witness :
    alGet (pulseAdjust Intent.pulse_check "alice@co"
        [("email", Value.vStr "bob@co")]) "email"
      = some (Value.vStr "alice@co") :=
  (C9_pulse_email_forced ⟨.ok "pulse_check", .ok [("email", .vStr "bob@co")],
      true⟩ [] "alice@co" "monthly feedback"
    (by decide) (by decide) (by decide)).1 [("email", Value.vStr "bob@co")]

/-- C10: every non-small-talk, non-confirmation message successfully
classified as `pulse_check` returns a "confirm" result and persists
the session with `pending_confirmation = true`; a pulse-check turn can
never return an "incomplete" result, because the `pulse_check`
required-field schema is empty so its missing list is always empty. -/
theorem C10_pulse_always_confirm (env : Env) (store : Store)
    (user message : String)
    (hp : ((alGet store user).getD defaultSession).pending_confirmation = false)
    (hc : normalize message ∉ CASUAL)
    (hcl : classify_intent env.classifyResp = .ok .pulse_check) :
    ∃ s : Session,
      route_request env store user message
        = (alSet store user s,
           { status := .confirm, intent := some .pulse_check, missing := [],
             details := none })
      ∧ s.pending_confirmation = true := by
  obtain ⟨s0, hs0⟩ : ∃ s0, (alGet store user).getD defaultSession = s0 :=
    ⟨_, rfl⟩
  rw [hs0] at hp
  unfold route_request
  rw [hs0]
  have hempty : (computeMissing .pulse_check (pulseAdjust .pulse_check user
      (mergeStep (resolveSession s0 .pulse_check).fields
        env.extractResp))).isEmpty = true := rfl
  refine ⟨⟨(resolveSession s0 Intent.pulse_check).intent,
      pulseAdjust Intent.pulse_check user
        (mergeStep (resolveSession s0 Intent.pulse_check).fields
          env.extractResp),
      true⟩, ?_, rfl⟩
  simp [hp, hc, hcl, hempty]

/-- Witness for C10 at a concrete pulse-check turn. -/
theorem C10_pulse_always_confirm_witness :
    ∃ s : Session,
      route_request ⟨.ok "pulse_check", .ok [], true⟩ [] "alice@co"
          "monthly feedback"
        = (alSet [] "alice@co" s,
           { status := .confirm, intent := some .pulse_check, missing := [],
             details := none })
      ∧ s.pending_confirmation = true :=
  C10_pulse_always_confirm ⟨.ok "pulse_check", .ok [], true⟩ [] "alice@co"
    "monthly feedback" (by decide) (by decide) (by decide)

end OptiFlow
